import Mathlib

/-!
Shallow embedding of `indra/explanation/pathfinding/util.py` (signed-node
codec, belief-sorted neighbor listing, edge-filter registry and subgraph
extraction) together with the behavior of the `networkx` primitives the
module calls (`subgraph_view`, `copy`, adjacency access), and proofs about
the embedded functions.

Python values that can appear as node identifiers or signs are modelled by
`PyVal` (integers, strings, `None`); Python exceptions that the embedded
code can raise or catch are modelled by `PyErr`; fallible computations
return `Except PyErr _`.  The module-level mutable global `G` is threaded
explicitly as `ModuleState`.  Beliefs are modelled as rationals.
-/

namespace Indra

/-- Python runtime values relevant to the pathfinding utilities: integers,
strings and `None`. -/
inductive PyVal where
  | intV : Int → PyVal
  | strV : String → PyVal
  | noneV : PyVal
deriving DecidableEq, Repr

/-- Python exceptions that the embedded code can raise or catch. -/
inductive PyErr where
  | valueError
  | typeError
  | keyError
deriving DecidableEq, Repr

/-- ASCII characters Python `int(str)` strips around a number: the ASCII
part of the `Py_UNICODE_ISSPACE` set — space, `\t`, `\n`, `\r`, vertical
tab `\x0b`, form feed `\x0c` and the separators `\x1c`–`\x1f`. -/
def pyIsSpace (c : Char) : Bool :=
  c = ' ' || c = '\t' || c = '\n' || c = '\r' ||
    c.toNat = 0x0b || c.toNat = 0x0c || c.toNat = 0x1c ||
    c.toNat = 0x1d || c.toNat = 0x1e || c.toNat = 0x1f

/-- Remaining digits of a number already started with a digit, with
Python's underscore grouping: each `_` must sit between two digits. -/
def digitsRest (acc : Nat) : List Char → Option Nat
  | [] => some acc
  | '_' :: c :: rest =>
      if c.isDigit then digitsRest (acc * 10 + (c.toNat - 48)) rest
      else none
  | c :: rest =>
      if c.isDigit then digitsRest (acc * 10 + (c.toNat - 48)) rest
      else none

/-- Digit run of Python `int(str)`: non-empty, beginning and ending with a
digit, underscores allowed only between digits (`int("1_0") == 10`,
`"_1"`, `"1_"`, `"1__0"` all raise `ValueError`). -/
def digitsToNat : List Char → Option Nat
  | [] => none
  | c :: rest =>
      if c.isDigit then digitsRest (c.toNat - 48) rest else none

/-- Characters of `s` with leading and trailing whitespace removed, using
the whitespace set Python `int(str)` strips. -/
def stripWhitespace (s : String) : List Char :=
  ((s.toList.dropWhile pyIsSpace).reverse.dropWhile pyIsSpace).reverse

/-- Python `int(s)` on a string: optional surrounding whitespace, optional
sign, decimal digits with underscore grouping; `none` models a
`ValueError`.  Exact for ASCII strings; Python additionally accepts
non-ASCII Unicode decimal digits and whitespace, which are outside the
character set modelled here (theorems quantifying over strings carry an
ASCII guard for this reason). -/
def parseIntStr (s : String) : Option Int :=
  match stripWhitespace s with
  | '-' :: rest => (digitsToNat rest).map (fun n => -(n : Int))
  | '+' :: rest => (digitsToNat rest).map (fun n => (n : Int))
  | cs => (digitsToNat cs).map (fun n => (n : Int))

/-- Python `int(x)`: an `int` is returned unchanged, a string is parsed
(`ValueError` on failure), and `None` raises `TypeError` (which the
`except ValueError` blocks in the source do NOT catch). -/
def pyInt : PyVal → Except PyErr Int
  | .intV n => .ok n
  | .strV s =>
      match parseIntStr s with
      | some n => .ok n
      | none => .error .valueError
  | .noneV => .error .typeError

/-- Embedding of `path_sign_to_signed_nodes(source, target, edge_sign)`:
`int(edge_sign) == 0` yields `((source, 0), (target, 0))`, otherwise
`((source, 1), (target, 0))`; a `ValueError` from the conversion is caught
and the sentinel pair `((None, None), (None, None))` returned (the node
names are dropped too); any other exception (e.g. `TypeError` from
`int(None)`) propagates. -/
def path_sign_to_signed_nodes (source target edge_sign : PyVal) :
    Except PyErr ((PyVal × PyVal) × (PyVal × PyVal)) :=
  match pyInt edge_sign with
  | .ok n =>
      if n = 0 then
        .ok ((source, .intV 0), (target, .intV 0))
      else
        .ok ((source, .intV 1), (target, .intV 0))
  | .error .valueError => .ok ((.noneV, .noneV), (.noneV, .noneV))
  | .error e => .error e

/-- Embedding of `signed_nodes_to_signed_edge(source, target)`: unpack the
two signed nodes, convert both signs with `int` (source sign first, as
Python evaluates `int(source_sign) == int(target_sign)` left to right);
equal signs give edge sign 0, different signs give 1; a `ValueError` is
caught and the sentinel triple `(None, None, None)` returned; any other
exception propagates. -/
def signed_nodes_to_signed_edge (source target : PyVal × PyVal) :
    Except PyErr (PyVal × PyVal × PyVal) :=
  let (source_name, source_sign) := source
  let (target_name, target_sign) := target
  match pyInt source_sign with
  | .error .valueError => .ok (.noneV, .noneV, .noneV)
  | .error e => .error e
  | .ok a =>
      match pyInt target_sign with
      | .error .valueError => .ok (.noneV, .noneV, .noneV)
      | .error e => .error e
      | .ok b =>
          if a = b then
            .ok (source_name, target_name, .intV 0)
          else
            .ok (source_name, target_name, .intV 1)

/-- Evidence record (`stmts_dict`) on an edge; only the `internal` flag is
read by the embedded code. -/
structure Stmt where
  internal : Bool
deriving DecidableEq

/-- Attribute dictionary of one edge: the optional `belief` value (a
rational; `none` models an absent key) and the optional `statements` list
(`none` models an absent key, whose subscript raises `KeyError`). -/
structure EdgeData where
  belief : Option ℚ
  statements : Option (List Stmt)
deriving DecidableEq

/-- Embedding of a `networkx.DiGraph`: the node list and the edge list in
insertion order, each edge being an ordered node pair with its attribute
data.  A well-formed `DiGraph` has at most one entry per node pair. -/
structure Graph (α : Type) where
  nodes : List α
  edges : List ((α × α) × EdgeData)
deriving DecidableEq

/-- Edges leaving `node` (`G.out_edges(node)`), in adjacency order. -/
def Graph.out_edges [DecidableEq α] (G : Graph α) (node : α) :
    List (α × α) :=
  (G.edges.filter (fun p => decide (p.1.1 = node))).map (fun p => p.1)

/-- Edges entering `node` (`G.in_edges(node)`), in adjacency order. -/
def Graph.in_edges [DecidableEq α] (G : Graph α) (node : α) :
    List (α × α) :=
  (G.edges.filter (fun p => decide (p.1.2 = node))).map (fun p => p.1)

/-- Successors of `node` (`G.successors(node)`), in adjacency order. -/
def Graph.successors [DecidableEq α] (G : Graph α) (node : α) : List α :=
  (G.out_edges node).map (fun e => e.2)

/-- Predecessors of `node` (`G.predecessors(node)`), in adjacency order. -/
def Graph.predecessors [DecidableEq α] (G : Graph α) (node : α) : List α :=
  (G.in_edges node).map (fun e => e.1)

/-- Attribute data of the pair `e` (`G.edges[e]`, also `G[u][v]`); `none`
models the `KeyError` raised when `e` is not an edge of `G`. -/
def Graph.edgeData [DecidableEq α] (G : Graph α) (e : α × α) :
    Option EdgeData :=
  (G.edges.find? (fun p => decide (p.1 = e))).map (fun p => p.2)

/-- Sort key `G.edges[(u, v)].get('belief', 0)` of `get_sorted_neighbors`.
The source evaluates it only on pairs that are edges of `G` (elsewhere the
subscript would raise `KeyError`); this model maps a missing pair to 0. -/
def beliefKey [DecidableEq α] (G : Graph α) (e : α × α) : ℚ :=
  match G.edgeData e with
  | some d => d.belief.getD 0
  | none => 0

/-- Python truthiness of the optional `force_edges` argument: `None` and
the empty list are falsy, a non-empty list is truthy. -/
def pyTruthy : Option (List β) → Bool
  | none => false
  | some l => !l.isEmpty

/-- Model of Python `sorted(l, key=key, reverse=True)`: a stable sort in
descending key order (CPython's sort is stable, and `reverse=True` acts as
if every comparison were reversed). -/
def pySortedDesc (key : β → ℚ) (l : List β) : List β :=
  l.mergeSort (fun a b => decide (key b ≤ key a))

/-- Embedding of `get_sorted_neighbors(G, node, reverse, force_edges)`:
predecessors (reverse) or successors (forward) of `node`, replaced — when
`force_edges` is truthy — by the endpoints of the intersection of the
node's in/out edges with `force_edges`, then sorted in descending order of
the connecting edge's `belief` (missing belief counts as 0).  The source
forms the intersection through Python sets, whose iteration order is
unspecified; this model keeps adjacency order, which only fixes the
tie-break order the source leaves open. -/
def get_sorted_neighbors [DecidableEq α] (G : Graph α) (node : α)
    (reverse : Bool) (force_edges : Option (List (α × α))) : List α :=
  if reverse then
    pySortedDesc (fun n => beliefKey G (n, node))
      (if pyTruthy force_edges then
        ((G.in_edges node).filter
          (fun e => decide (e ∈ force_edges.getD []))).map (fun e => e.1)
      else
        G.predecessors node)
  else
    pySortedDesc (fun n => beliefKey G (node, n))
      (if pyTruthy force_edges then
        ((G.out_edges node).filter
          (fun e => decide (e ∈ force_edges.getD []))).map (fun e => e.2)
      else
        G.successors node)

/-- Module-level mutable state of `pathfinding/util.py`: the global `G`
(initially `None`) that `get_subgraph` rebinds and that the registered
edge-filter functions read. -/
structure ModuleState (α : Type) where
  G : Option (Graph α)
deriving DecidableEq

/-- Embedding of the registered predicate `filter_to_internal_edges(u, v)`
in the `DiGraph` call shape used here (no parallel-edge key).  It reads
edge data from the module-level global `G` — not from any parameter — via
`G[u][v]`: subscripting the initial `None` global raises `TypeError`, a
missing edge or a missing `statements` key raises `KeyError`; otherwise
the result is true iff some statements entry has its `internal` flag
set. -/
def filter_to_internal_edges [DecidableEq α] (st : ModuleState α)
    (u v : α) : Except PyErr Bool :=
  match st.G with
  | none => .error .typeError
  | some g =>
      match g.edgeData (u, v) with
      | none => .error .keyError
      | some d =>
          match d.statements with
          | none => .error .keyError
          | some stmts => .ok (stmts.any (fun s => s.internal))

/-- The registry `edge_filter_functions` as populated at module load by
`@register_edge_filter`: it maps exactly the name
`"filter_to_internal_edges"` to that function (keyed by
`function.__name__`). -/
def edge_filter_functions [DecidableEq α] (name : String) :
    Option (ModuleState α → α → α → Except PyErr Bool) :=
  if name = "filter_to_internal_edges" then some filter_to_internal_edges
  else none

/-- Edge filtering performed when `nx.subgraph_view(g, filter_edge=f)` is
copied: the predicate is evaluated on each edge in adjacency order, edges
with a true result are kept, and the first exception aborts the copy. -/
def filterEdgesE (f : α → α → Except PyErr Bool) :
    List ((α × α) × EdgeData) → Except PyErr (List ((α × α) × EdgeData))
  | [] => .ok []
  | e :: rest =>
      match f e.1.1 e.1.2 with
      | .error err => .error err
      | .ok b =>
          match filterEdgesE f rest with
          | .error err => .error err
          | .ok tail => .ok (if b then e :: tail else tail)

/-- The `view = nx.subgraph_view(g, filter_edge=...); new_g = view.copy()`
part of `get_subgraph`, evaluated with the module global already rebound
to `g`.  The copy keeps every node of `g` (the node filter defaults to
pass-all) and the edges accepted by the predicate.  When the name lookup
produced `None`, networkx stores `None` as the view's edge predicate and
the copy calls it on the first edge it visits, raising
`TypeError: NoneType object is not callable` — so only an edge-free graph
yields a (node-preserving, edge-free) copy in that case. -/
def subgraph_copy [DecidableEq α] (st1 : ModuleState α) (g : Graph α)
    (filter_func_name : String) : Except PyErr (Graph α) :=
  match (edge_filter_functions filter_func_name :
      Option (ModuleState α → α → α → Except PyErr Bool)) with
  | none =>
      if g.edges.isEmpty then .ok ⟨g.nodes, []⟩ else .error .typeError
  | some f =>
      (filterEdgesE (f st1) g.edges).map (fun es => (⟨g.nodes, es⟩ : Graph α))

/-- Embedding of `get_subgraph(g, filter_func_name)`: the module global
`G` is rebound to `g` first (`global G; G = g`), then the named filter is
looked up with `.get` (`None` when unregistered) and the filtered view is
built and copied; the input graph is only read, never written.  The pair
returned is (module state after the call, result or raised exception). -/
def get_subgraph [DecidableEq α] (st : ModuleState α) (g : Graph α)
    (filter_func_name : String) :
    ModuleState α × Except PyErr (Graph α) :=
  (⟨some g⟩, subgraph_copy ⟨some g⟩ g filter_func_name)

/-- Example graph of spec §8.3: node `N` with outgoing edges to `X`
(belief 9/10), `Y` (belief 3/10) and `Z` (no belief attribute). -/
def exampleGraphC5 : Graph String :=
  ⟨["N", "X", "Y", "Z"],
   [(("N", "X"), ⟨some (9/10), none⟩),
    (("N", "Y"), ⟨some (3/10), none⟩),
    (("N", "Z"), ⟨none, none⟩)]⟩

/-- Example graph of spec §8.4: `N` has edges to `X` (belief 1/10) and to
`Y` (belief 9/10); only the edge `(N, X)` will be allowed. -/
def exampleGraphC6 : Graph String :=
  ⟨["N", "X", "Y"],
   [(("N", "X"), ⟨some (1/10), none⟩),
    (("N", "Y"), ⟨some (9/10), none⟩)]⟩

/-- Example graph with a single edge carrying one internal statement. -/
def exampleGraphC4 : Graph String :=
  ⟨["A", "B"], [(("A", "B"), ⟨none, some [⟨true⟩]⟩)]⟩

/-- Example graph with one internal-evidence edge `(0, 1)` and one
external-only edge `(1, 2)`. -/
def exampleGraphC3 : Graph Nat :=
  ⟨[0, 1, 2],
   [((0, 1), ⟨none, some [⟨false⟩, ⟨true⟩]⟩),
    ((1, 2), ⟨none, some [⟨false⟩]⟩)]⟩

/-- Graph whose edge `(0, 1)` has internal evidence. -/
def crossGraphTrue : Graph Nat :=
  ⟨[0, 1], [((0, 1), ⟨none, some [⟨true⟩]⟩)]⟩

/-- Graph whose edge `(0, 1)` has only non-internal evidence. -/
def crossGraphFalse : Graph Nat :=
  ⟨[0, 1], [((0, 1), ⟨none, some [⟨false⟩]⟩)]⟩

/-- Sort key used by `get_sorted_neighbors` for a candidate neighbor `n`
of `node`: the belief of the connecting edge in the searched direction. -/
def neighborKey [DecidableEq α] (g : Graph α) (node : α) (reverse : Bool)
    (n : α) : ℚ :=
  if reverse then beliefKey g (n, node) else beliefKey g (node, n)

end Indra

namespace Indra

/-- Helper: a descending Python sort is a permutation of its input. -/
theorem pySortedDesc_perm (key : β → ℚ) (l : List β) :
    (pySortedDesc key l).Perm l :=
  List.mergeSort_perm l _

/-- Helper: membership is preserved by the descending Python sort. -/
theorem mem_pySortedDesc {key : β → ℚ} {l : List β} {x : β} :
    x ∈ pySortedDesc key l ↔ x ∈ l :=
  List.mem_mergeSort

/-- Helper: the descending Python sort is pairwise sorted in descending
key order. -/
theorem pySortedDesc_sorted (key : β → ℚ) (l : List β) :
    (pySortedDesc key l).Pairwise (fun a b => key b ≤ key a) := by
  have htrans : ∀ (a b c : β),
      (fun a b => decide (key b ≤ key a)) a b = true →
      (fun a b => decide (key b ≤ key a)) b c = true →
      (fun a b => decide (key b ≤ key a)) a c = true := by
    intro a b c hab hbc
    simp only [decide_eq_true_eq] at hab hbc ⊢
    exact le_trans hbc hab
  have htotal : ∀ (a b : β),
      ((fun a b => decide (key b ≤ key a)) a b
        || (fun a b => decide (key b ≤ key a)) b a) = true := by
    intro a b
    rcases le_total (key a) (key b) with h | h <;> simp [h]
  have hs := List.sorted_mergeSort htrans htotal l
  exact hs.imp (fun h => of_decide_eq_true h)

/-- Helper: a three-element list is pairwise related by a Boolean
relation when the three ordered applications hold. -/
theorem pairwiseBool_three {a b c : β} {le : β → β → Bool}
    (hab : le a b = true) (hac : le a c = true) (hbc : le b c = true) :
    List.Pairwise (fun x y => le x y = true) [a, b, c] := by
  refine List.Pairwise.cons ?_
    (List.Pairwise.cons ?_ (List.Pairwise.cons ?_ List.Pairwise.nil))
  · intro y hy
    rcases List.mem_cons.mp hy with rfl | hy
    · exact hab
    · rcases List.mem_cons.mp hy with rfl | hy
      · exact hac
      · cases hy
  · intro y hy
    rcases List.mem_cons.mp hy with rfl | hy
    · exact hbc
    · cases hy
  · intro y hy
    cases hy

/-- Helper: every member of `out_edges node` has first component
`node`. -/
theorem fst_eq_of_mem_out_edges [DecidableEq α] {g : Graph α} {node : α}
    {e : α × α} (h : e ∈ g.out_edges node) : e.1 = node := by
  simp only [Graph.out_edges, List.mem_map, List.mem_filter,
    decide_eq_true_eq] at h
  obtain ⟨p, ⟨_, hp⟩, rfl⟩ := h
  exact hp

/-- Helper: every member of `in_edges node` has second component
`node`. -/
theorem snd_eq_of_mem_in_edges [DecidableEq α] {g : Graph α} {node : α}
    {e : α × α} (h : e ∈ g.in_edges node) : e.2 = node := by
  simp only [Graph.in_edges, List.mem_map, List.mem_filter,
    decide_eq_true_eq] at h
  obtain ⟨p, ⟨_, hp⟩, rfl⟩ := h
  exact hp

/-- Helper: in a list with no duplicate keys, `find?` on the key of a
member returns that member. -/
theorem find?_eq_of_nodup_keys [DecidableEq α]
    {l : List ((α × α) × EdgeData)}
    (hnd : (l.map (fun p => p.1)).Nodup)
    {e : (α × α) × EdgeData} (he : e ∈ l) :
    l.find? (fun p => decide (p.1 = e.1)) = some e := by
  induction l with
  | nil => cases he
  | cons x xs ih =>
      rw [List.map_cons, List.nodup_cons] at hnd
      rcases List.mem_cons.mp he with rfl | hmem
      · exact List.find?_cons_of_pos _ (by simp)
      · have hx : x.1 ≠ e.1 := by
          intro heq
          exact hnd.1 (heq ▸ List.mem_map_of_mem (fun p => p.1) hmem)
        rw [List.find?_cons_of_neg _ (by simpa using hx)]
        exact ih hnd.2 hmem

/-- Helper: when a key lookup has no duplicates, `edgeData` of a member's
key is that member's data. -/
theorem edgeData_eq_of_mem [DecidableEq α] {g : Graph α}
    (hnd : (g.edges.map (fun p => p.1)).Nodup)
    {e : (α × α) × EdgeData} (he : e ∈ g.edges) :
    g.edgeData e.1 = some e.2 := by
  unfold Graph.edgeData
  rw [find?_eq_of_nodup_keys hnd he]
  rfl

/-- Helper: a filter that returns `.ok` pointwise makes `filterEdgesE`
succeed with the plain list filter. -/
theorem filterEdgesE_eq_filter (f : α → α → Except PyErr Bool)
    (p : (α × α) × EdgeData → Bool) :
    ∀ (l : List ((α × α) × EdgeData)),
      (∀ e ∈ l, f e.1.1 e.1.2 = .ok (p e)) →
      filterEdgesE f l = .ok (l.filter p)
  | [], _ => rfl
  | e :: rest, h => by
      have he := h e (List.mem_cons_self e rest)
      have ih := filterEdgesE_eq_filter f p rest
        (fun x hx => h x (List.mem_cons_of_mem _ hx))
      rw [filterEdgesE, he, ih, List.filter_cons]

/-- Claim C1: round trip.  For every pair of node identifiers `a`, `b` and
both polarities `p ∈ {0,1}`, feeding the two signed nodes produced by
`path_sign_to_signed_nodes a b p` into `signed_nodes_to_signed_edge`
reproduces exactly the triple `(a, b, p)`. -/
theorem C1_roundtrip (a b : PyVal) :
    (path_sign_to_signed_nodes a b (.intV 0)).bind
        (fun pr => signed_nodes_to_signed_edge pr.1 pr.2)
      = .ok (a, b, .intV 0)
    ∧ (path_sign_to_signed_nodes a b (.intV 1)).bind
        (fun pr => signed_nodes_to_signed_edge pr.1 pr.2)
      = .ok (a, b, .intV 1) :=
  ⟨rfl, rfl⟩

/-- Claim C2 (evaluation at the failing input): the code maps edge sign 1
to `((source, 1), (target, 0))` — a pair with a NEGATIVE source polarity —
while the function's own docstring ("Pairs with a negative source node are
filtered out", "- path -> (a+, b-)") and the claim say sign 1 yields
`((source, 0), (target, 1))`.  Sign 0 behaves as documented. -/
theorem C2_sign_one_evaluation :
    path_sign_to_signed_nodes (.strV "A") (.strV "B") (.intV 0)
        = .ok ((.strV "A", .intV 0), (.strV "B", .intV 0))
    ∧ path_sign_to_signed_nodes (.strV "A") (.strV "B") (.intV 1)
        = .ok ((.strV "A", .intV 1), (.strV "B", .intV 0))
    ∧ path_sign_to_signed_nodes (.strV "A") (.strV "B") (.intV 1)
        ≠ .ok ((.strV "A", .intV 0), (.strV "B", .intV 1)) := by
  refine ⟨rfl, rfl, ?_⟩
  simp [path_sign_to_signed_nodes, pyInt]

/-- Claim C7 (counterexample): a sign of `None` cannot be parsed as an
integer, yet neither codec function returns its sentinel: Python
`int(None)` raises `TypeError`, which the `except ValueError` handlers do
not catch, so the exception propagates out of both functions. -/
theorem C7_none_sign_raises :
    path_sign_to_signed_nodes (.strV "A") (.strV "B") .noneV
        = .error .typeError
    ∧ path_sign_to_signed_nodes (.strV "A") (.strV "B") .noneV
        ≠ .ok ((.noneV, .noneV), (.noneV, .noneV))
    ∧ signed_nodes_to_signed_edge (.strV "A", .noneV) (.strV "B", .intV 0)
        = .error .typeError
    ∧ signed_nodes_to_signed_edge (.strV "A", .noneV) (.strV "B", .intV 0)
        ≠ .ok (.noneV, .noneV, .noneV) := by
  refine ⟨rfl, ?_, rfl, ?_⟩ <;>
    simp [path_sign_to_signed_nodes, signed_nodes_to_signed_edge, pyInt]

/-- Claim C7 (amended): only `ValueError` is caught.  For every string
sign that `int()` fails to parse, `path_sign_to_signed_nodes` returns the
sentinel pair `((None, None), (None, None))` and
`signed_nodes_to_signed_edge` returns the sentinel triple
`(None, None, None)` (whichever of its two signs is the bad one),
non-fatally; whereas a `None` sign raises `TypeError`, which propagates.
Quantification is over ASCII strings, the domain on which the embedded
parser is exact (Python also accepts non-ASCII Unicode decimal digits and
whitespace, outside the modelled character set). -/
theorem C7_amended_valueerror_only (a b : PyVal) (s : String)
    (hascii : ∀ c ∈ s.toList, c.toNat < 128)
    (h : parseIntStr s = none) :
    path_sign_to_signed_nodes a b (.strV s)
        = .ok ((.noneV, .noneV), (.noneV, .noneV))
    ∧ signed_nodes_to_signed_edge (a, .strV s) (b, .intV 0)
        = .ok (.noneV, .noneV, .noneV)
    ∧ signed_nodes_to_signed_edge (a, .intV 0) (b, .strV s)
        = .ok (.noneV, .noneV, .noneV)
    ∧ path_sign_to_signed_nodes a b .noneV = .error .typeError
    ∧ signed_nodes_to_signed_edge (a, .noneV) (b, .intV 0)
        = .error .typeError := by
  refine ⟨?_, ?_, ?_, rfl, rfl⟩ <;>
    simp [path_sign_to_signed_nodes, signed_nodes_to_signed_edge, pyInt, h]

/-- Witness for `C7_amended_valueerror_only` at the concrete unparseable
sign string `"x"`. -/
theorem C7_amended_witness :
    ((∀ c ∈ "x".toList, c.toNat < 128) ∧ parseIntStr "x" = none)
    ∧ (path_sign_to_signed_nodes (.strV "A") (.strV "B") (.strV "x")
          = .ok ((.noneV, .noneV), (.noneV, .noneV))
        ∧ signed_nodes_to_signed_edge (.strV "A", .strV "x") (.strV "B", .intV 0)
          = .ok (.noneV, .noneV, .noneV)
        ∧ signed_nodes_to_signed_edge (.strV "A", .intV 0) (.strV "B", .strV "x")
          = .ok (.noneV, .noneV, .noneV)
        ∧ path_sign_to_signed_nodes (.strV "A") (.strV "B") .noneV
          = .error .typeError
        ∧ signed_nodes_to_signed_edge (.strV "A", .noneV) (.strV "B", .intV 0)
          = .error .typeError) :=
  ⟨⟨by decide, by decide⟩,
   C7_amended_valueerror_only (.strV "A") (.strV "B") "x" (by decide)
     (by decide)⟩

/-- Claim C3: for every well-formed graph (unique edge keys; every edge
carries a `statements` attribute, so the registered predicate returns
instead of raising `KeyError`), `get_subgraph` with the registered name
returns a new graph that keeps every node of `g` and exactly the edges
satisfying the predicate.  The input `g` is never written: the embedding
threads the module's only mutable state (the global `G`) explicitly, and
`g` occurs only on the read side. -/
theorem C3_subgraph_edge_set [DecidableEq α] (st : ModuleState α)
    (g : Graph α)
    (hnd : (g.edges.map (fun p => p.1)).Nodup)
    (hstmts : ∀ e ∈ g.edges, (EdgeData.statements e.2).isSome) :
    get_subgraph st g "filter_to_internal_edges"
      = (⟨some g⟩,
         .ok ⟨g.nodes,
              g.edges.filter (fun e =>
                ((EdgeData.statements e.2).getD []).any
                  (fun s => s.internal))⟩) := by
  have hreg : subgraph_copy (⟨some g⟩ : ModuleState α) g
      "filter_to_internal_edges"
      = (filterEdgesE (filter_to_internal_edges ⟨some g⟩) g.edges).map
          (fun es => (⟨g.nodes, es⟩ : Graph α)) := rfl
  have hpoint : ∀ e ∈ g.edges,
      filter_to_internal_edges (⟨some g⟩ : ModuleState α) e.1.1 e.1.2
        = .ok (((EdgeData.statements e.2).getD []).any
            (fun s => s.internal)) := by
    intro e he
    obtain ⟨stmts, hst⟩ := Option.isSome_iff_exists.mp (hstmts e he)
    have hfind : g.edgeData e.1 = some e.2 := edgeData_eq_of_mem hnd he
    simp [filter_to_internal_edges, Prod.mk.eta, hfind, hst]
  unfold get_subgraph
  rw [hreg, filterEdgesE_eq_filter _ _ g.edges hpoint]
  rfl

/-- Witness for `C3_subgraph_edge_set` on the two-edge example graph. -/
theorem C3_subgraph_edge_set_witness :
    ((exampleGraphC3.edges.map (fun p => p.1)).Nodup
      ∧ ∀ e ∈ exampleGraphC3.edges, (EdgeData.statements e.2).isSome)
    ∧ get_subgraph ⟨none⟩ exampleGraphC3 "filter_to_internal_edges"
        = (⟨some exampleGraphC3⟩,
           .ok ⟨exampleGraphC3.nodes,
                exampleGraphC3.edges.filter (fun e =>
                  ((EdgeData.statements e.2).getD []).any
                    (fun s => s.internal))⟩) :=
  ⟨⟨by decide, by decide⟩,
   C3_subgraph_edge_set ⟨none⟩ exampleGraphC3 (by decide) (by decide)⟩

/-- Claim C4 (counterexample): on a one-edge graph with an unregistered
filter name, `get_subgraph` does NOT return an edge-free graph — the
`None` looked up in the registry is handed to `nx.subgraph_view` as the
edge predicate and called during the copy, raising `TypeError`. -/
theorem C4_unregistered_raises :
    (get_subgraph ⟨none⟩ exampleGraphC4 "no_such_filter").2
        = .error .typeError
    ∧ (get_subgraph ⟨none⟩ exampleGraphC4 "no_such_filter").2
        ≠ .ok ⟨exampleGraphC4.nodes, []⟩ := by
  refine ⟨rfl, ?_⟩
  rw [show (get_subgraph ⟨none⟩ exampleGraphC4 "no_such_filter").2
      = .error .typeError from rfl]
  simp

/-- Claim C4 (amended): with an unregistered filter name the registry
lookup yields `None`, the copy of the view calls it on the first edge, and
`get_subgraph` raises `TypeError` whenever the graph has at least one
edge; only for an edge-free graph does it return, without raising, a
node-preserving edge-free copy.  The global `G` is rebound either way. -/
theorem C4_amended_unregistered [DecidableEq α] (st : ModuleState α)
    (g : Graph α) (name : String)
    (h : name ≠ "filter_to_internal_edges") :
    (get_subgraph st g name).1 = ⟨some g⟩
    ∧ (get_subgraph st g name).2
        = (if g.edges.isEmpty then .ok (⟨g.nodes, []⟩ : Graph α)
           else .error .typeError) := by
  refine ⟨rfl, ?_⟩
  show subgraph_copy ⟨some g⟩ g name = _
  unfold subgraph_copy
  rw [show (edge_filter_functions name :
      Option (ModuleState α → α → α → Except PyErr Bool)) = none from by
    simp [edge_filter_functions, h]]

/-- Witness for `C4_amended_unregistered` at a concrete unregistered
name. -/
theorem C4_amended_witness :
    ("no_such_filter" ≠ "filter_to_internal_edges")
    ∧ ((get_subgraph ⟨none⟩ exampleGraphC4 "no_such_filter").1
          = ⟨some exampleGraphC4⟩
       ∧ (get_subgraph ⟨none⟩ exampleGraphC4 "no_such_filter").2
          = (if exampleGraphC4.edges.isEmpty
             then .ok (⟨exampleGraphC4.nodes, []⟩ : Graph String)
             else .error .typeError)) :=
  ⟨by decide,
   C4_amended_unregistered ⟨none⟩ exampleGraphC4 "no_such_filter"
     (by decide)⟩

/-- Claim C5: with no allow-list, `get_sorted_neighbors` returns exactly
the node's successors (forward) or predecessors (reverse), sorted in
descending order of the connecting edge's `belief` attribute with a
missing belief treated as 0; on the spec's example (N→X belief 9/10, N→Y
belief 3/10, N→Z no belief) the forward result is `[X, Y, Z]`. -/
theorem C5_descending_belief [DecidableEq α] (g : Graph α) (node : α)
    (reverse : Bool) (hnode : node ∈ g.nodes) :
    ((get_sorted_neighbors g node reverse none).Perm
        (if reverse then g.predecessors node else g.successors node)
      ∧ (get_sorted_neighbors g node reverse none).Pairwise
          (fun a b =>
            neighborKey g node reverse b ≤ neighborKey g node reverse a))
    ∧ get_sorted_neighbors exampleGraphC5 "N" false none
        = ["X", "Y", "Z"] := by
  constructor
  · cases reverse
    · exact ⟨pySortedDesc_perm _ _, pySortedDesc_sorted _ _⟩
    · exact ⟨pySortedDesc_perm _ _, pySortedDesc_sorted _ _⟩
  · rw [show get_sorted_neighbors exampleGraphC5 "N" false none
        = pySortedDesc (fun n => beliefKey exampleGraphC5 ("N", n))
            ["X", "Y", "Z"] from rfl]
    refine List.mergeSort_of_sorted (pairwiseBool_three ?_ ?_ ?_) <;>
      refine decide_eq_true ?_ <;> beta_reduce
    · rw [show beliefKey exampleGraphC5 ("N", "Y") = 3/10 from rfl,
          show beliefKey exampleGraphC5 ("N", "X") = 9/10 from rfl]
      norm_num
    · rw [show beliefKey exampleGraphC5 ("N", "Z") = 0 from rfl,
          show beliefKey exampleGraphC5 ("N", "X") = 9/10 from rfl]
      norm_num
    · rw [show beliefKey exampleGraphC5 ("N", "Z") = 0 from rfl,
          show beliefKey exampleGraphC5 ("N", "Y") = 3/10 from rfl]
      norm_num

/-- Witness for `C5_descending_belief` on the spec's example graph. -/
theorem C5_descending_belief_witness :
    ("N" ∈ exampleGraphC5.nodes)
    ∧ (((get_sorted_neighbors exampleGraphC5 "N" false none).Perm
          (if false then exampleGraphC5.predecessors "N"
           else exampleGraphC5.successors "N")
        ∧ (get_sorted_neighbors exampleGraphC5 "N" false none).Pairwise
            (fun a b =>
              neighborKey exampleGraphC5 "N" false b
                ≤ neighborKey exampleGraphC5 "N" false a))
       ∧ get_sorted_neighbors exampleGraphC5 "N" false none
           = ["X", "Y", "Z"]) :=
  ⟨by decide, C5_descending_belief exampleGraphC5 "N" false (by decide)⟩

/-- Claim C6: with a non-empty allow-list, the neighbors returned are
exactly the endpoints of the intersection of the node's out-edges
(forward) or in-edges (reverse) with the allow-list; on the example graph
where only `(N, X)` is allowed, the forward result is exactly `[X]` even
though `(N, Y)` has the higher belief. -/
theorem C6_allowlist_restriction [DecidableEq α] (g : Graph α)
    (node x : α) (fe : List (α × α)) (hfe : fe ≠ []) :
    (x ∈ get_sorted_neighbors g node false (some fe)
        ↔ (node, x) ∈ g.out_edges node ∧ (node, x) ∈ fe)
    ∧ (x ∈ get_sorted_neighbors g node true (some fe)
        ↔ (x, node) ∈ g.in_edges node ∧ (x, node) ∈ fe)
    ∧ get_sorted_neighbors exampleGraphC6 "N" false (some [("N", "X")])
        = ["X"] := by
  obtain ⟨e0, fe', rfl⟩ : ∃ e0 fe', fe = e0 :: fe' := by
    cases fe with
    | nil => exact absurd rfl hfe
    | cons a l => exact ⟨a, l, rfl⟩
  refine ⟨?_, ?_, ?_⟩
  case refine_3 =>
    rw [show get_sorted_neighbors exampleGraphC6 "N" false
          (some [("N", "X")])
        = pySortedDesc (fun n => beliefKey exampleGraphC6 ("N", n))
            ["X"] from rfl]
    exact List.mergeSort_singleton "X"
  · show x ∈ pySortedDesc _
        (((g.out_edges node).filter
          (fun e => decide (e ∈ e0 :: fe'))).map (fun e => e.2)) ↔ _
    rw [mem_pySortedDesc]
    simp only [List.mem_map, List.mem_filter, decide_eq_true_eq]
    constructor
    · rintro ⟨e, ⟨hout, hfe2⟩, rfl⟩
      have h1 := fst_eq_of_mem_out_edges hout
      have hee : (node, e.2) = e := by rw [← h1]
      rw [hee]
      exact ⟨hout, hfe2⟩
    · rintro ⟨hout, hmem⟩
      exact ⟨(node, x), ⟨hout, hmem⟩, rfl⟩
  · show x ∈ pySortedDesc _
        (((g.in_edges node).filter
          (fun e => decide (e ∈ e0 :: fe'))).map (fun e => e.1)) ↔ _
    rw [mem_pySortedDesc]
    simp only [List.mem_map, List.mem_filter, decide_eq_true_eq]
    constructor
    · rintro ⟨e, ⟨hin, hfe2⟩, rfl⟩
      have h2 := snd_eq_of_mem_in_edges hin
      have hee : (e.1, node) = e := by rw [← h2]
      rw [hee]
      exact ⟨hin, hfe2⟩
    · rintro ⟨hin, hmem⟩
      exact ⟨(x, node), ⟨hin, hmem⟩, rfl⟩

/-- Witness for `C6_allowlist_restriction` with the single allowed edge
`(N, X)`. -/
theorem C6_allowlist_restriction_witness :
    ([(("N" : String), ("X" : String))] ≠ [])
    ∧ (("X" ∈ get_sorted_neighbors exampleGraphC6 "N" false
            (some [("N", "X")])
          ↔ ("N", "X") ∈ exampleGraphC6.out_edges "N"
            ∧ ("N", "X") ∈ [("N", "X")])
       ∧ ("X" ∈ get_sorted_neighbors exampleGraphC6 "N" true
            (some [("N", "X")])
          ↔ ("X", "N") ∈ exampleGraphC6.in_edges "N"
            ∧ ("X", "N") ∈ [("N", "X")])
       ∧ get_sorted_neighbors exampleGraphC6 "N" false
            (some [("N", "X")]) = ["X"]) :=
  ⟨by decide,
   C6_allowlist_restriction exampleGraphC6 "N" "X" [("N", "X")]
     (by decide)⟩

/-- Claim C8: `filter_to_internal_edges` answers true iff at least one
evidence record of the edge has its `internal` flag set, and false exactly
when no record does (given the global is bound to a graph in which the
queried pair is an edge carrying a `statements` attribute). -/
theorem C8_internal_iff [DecidableEq α] (st : ModuleState α) (g : Graph α)
    (u v : α) (d : EdgeData) (stmts : List Stmt)
    (hG : st.G = some g) (hd : g.edgeData (u, v) = some d)
    (hs : EdgeData.statements d = some stmts) :
    (filter_to_internal_edges st u v = .ok true
        ↔ ∃ s ∈ stmts, s.internal = true)
    ∧ (filter_to_internal_edges st u v = .ok false
        ↔ ∀ s ∈ stmts, s.internal = false) := by
  simp [filter_to_internal_edges, hG, hd, hs, List.any_eq_true,
    List.any_eq_false]

/-- Witness for `C8_internal_iff` on the edge `(0, 1)` of the example
graph, whose records are one external and one internal. -/
theorem C8_internal_iff_witness :
    ((⟨some exampleGraphC3⟩ : ModuleState Nat).G = some exampleGraphC3
      ∧ exampleGraphC3.edgeData (0, 1)
          = some ⟨none, some [⟨false⟩, ⟨true⟩]⟩
      ∧ EdgeData.statements ⟨none, some [⟨false⟩, ⟨true⟩]⟩
          = some [⟨false⟩, ⟨true⟩])
    ∧ ((filter_to_internal_edges (⟨some exampleGraphC3⟩ : ModuleState Nat)
            0 1 = .ok true
          ↔ ∃ s ∈ [(⟨false⟩ : Stmt), ⟨true⟩], s.internal = true)
       ∧ (filter_to_internal_edges (⟨some exampleGraphC3⟩ : ModuleState Nat)
            0 1 = .ok false
          ↔ ∀ s ∈ [(⟨false⟩ : Stmt), ⟨true⟩], s.internal = false)) :=
  ⟨⟨rfl, by decide, rfl⟩,
   C8_internal_iff ⟨some exampleGraphC3⟩ exampleGraphC3 0 1
     ⟨none, some [⟨false⟩, ⟨true⟩]⟩ [⟨false⟩, ⟨true⟩]
     rfl (by decide) rfl⟩

/-- Claim C9: every `get_subgraph` call rebinds the single module-level
global `G` to its graph argument, and `filter_to_internal_edges` reads
edge data from that shared global rather than from any parameter, so the
same `(u, v)` query yields different outcomes under the states left by
`get_subgraph` on different graphs — interleaved calls can cross-talk. -/
theorem C9_shared_global_crosstalk :
    (∀ (α : Type) [DecidableEq α], ∀ (st : ModuleState α) (g : Graph α)
        (name : String), (get_subgraph st g name).1 = ⟨some g⟩)
    ∧ filter_to_internal_edges
        (get_subgraph (⟨none⟩ : ModuleState Nat) crossGraphTrue
          "filter_to_internal_edges").1 0 1 = .ok true
    ∧ filter_to_internal_edges
        (get_subgraph (⟨none⟩ : ModuleState Nat) crossGraphFalse
          "filter_to_internal_edges").1 0 1 = .ok false :=
  ⟨fun α _ st g name => rfl, rfl, rfl⟩

/-- Claim C10: an allow-list that is supplied but empty is falsy in the
`if force_edges:` test, so `get_sorted_neighbors` behaves exactly as if no
allow-list had been supplied, returning all neighbors instead of the empty
intersection. -/
theorem C10_empty_allowlist [DecidableEq α] (g : Graph α) (node : α)
    (reverse : Bool) :
    get_sorted_neighbors g node reverse (some [])
      = get_sorted_neighbors g node reverse none := by
  cases reverse <;> rfl

end Indra
